import Mathlib

/-!
Verification of the kalamos static-site generator against its specification.

The Rust sources are shallowly embedded:
* Rust `&str` / `String` is `Str := List Char` (UTF-8 byte order coincides
  with codepoint order, so lexicographic comparison on `Char` matches Rust's
  `str` ordering).
* `std::path::PathBuf` is `RPath` (an absolute-flag plus the list of normal
  components; the embedded paths never contain `.`/`..` components).
* Fallible Rust functions returning `Result` become `Except`.
* External crates (`toml`, `pulldown_cmark`, `syntect`, `tera`, `chrono`)
  are collaborators, not part of this repository; where possible they enter
  the embedding as function parameters, so theorems hold for all their
  behaviours, and concrete evaluations instantiate them with explicit
  interpretations.  `chrono`'s date parsing/formatting for the fixed
  format strings `"%Y-%m-%d"` and `"%Y/%m"` is modelled directly.
-/

set_option maxRecDepth 100000

namespace Kalamos

/-- Rust string, as a list of characters. -/
abbrev Str := List Char

/-- Character list of a Lean string literal. -/
def chars (s : String) : Str := s.data

/-- `toml::Value`, restricted to the shapes the frontmatter schemas inspect
(strings, integers, booleans and tables).  `src/parser.rs` aliases
`Frontmatter = toml::Value`. -/
inductive Toml where
  | str (s : Str)
  | int (n : Int)
  | boolean (b : Bool)
  | table (kvs : List (Str × Toml))

/-- `parser::Error` from `src/parser.rs`. -/
inductive PError where
  | invalidFrontmatter (s : Str)
  | contentBefore (s : Str)
deriving Repr, DecidableEq, BEq

/-- Unicode `White_Space` test: Rust's `char::is_whitespace`, used through
`str::trim` in `extract_frontmatter`. -/
def isRustWs (c : Char) : Bool :=
  let n := c.toNat
  decide (0x9 ≤ n ∧ n ≤ 0xD) || decide (n = 0x20) || decide (n = 0x85) ||
  decide (n = 0xA0) || decide (n = 0x1680) ||
  decide (0x2000 ≤ n ∧ n ≤ 0x200A) || decide (n = 0x2028) ||
  decide (n = 0x2029) || decide (n = 0x202F) || decide (n = 0x205F) ||
  decide (n = 0x3000)

/-- `s.trim().is_empty()` for a Rust string: every character is whitespace. -/
def allWs (s : Str) : Bool := s.all isRustWs

/-- Rust `markdown.split("+++\n")`: splits on leftmost, non-overlapping
occurrences of the four-character frontmatter delimiter, keeping empty
sections. -/
def splitDelim : Str → List Str
  | [] => [[]]
  | '+' :: '+' :: '+' :: '\n' :: rest => [] :: splitDelim rest
  | c :: rest =>
    match splitDelim rest with
    | [] => [[c]]
    | h :: t => (c :: h) :: t

/-- Number of non-overlapping `"+++\n"` occurrences found by the
left-to-right scan of `splitDelim` (`split` yields one more section than
there are separator occurrences). -/
def countDelim (s : Str) : Nat := (splitDelim s).length - 1

/-- The joiner `"\n+++\n"` used by `extract_frontmatter` to rebuild the body
(one character longer than the `"+++\n"` split pattern). -/
def nlDelim : Str := chars ("\n+++\n")

/-- `parser::extract_frontmatter` from `src/parser.rs` (lines 49-72).
`tomlF` stands for the external `toml::from_str`; `toml::from_str("")`
yields the empty table. -/
def extractFrontmatter (tomlF : Str → Except Str Toml) (md : Str) :
    Except PError (Toml × Str) :=
  let sections := splitDelim md
  if sections.length < 3 then
    .ok (Toml.table [], List.intercalate nlDelim sections)
  else
    match sections with
    | before :: fmContent :: rest =>
      if allWs before then
        match tomlF fmContent with
        | .error e => .error (.invalidFrontmatter e)
        | .ok fm => .ok (fm, List.intercalate nlDelim rest)
      else
        .error (.contentBefore before)
    | _ => .error (.contentBefore [])

/-- A trivial interpretation of `toml::from_str`, used to instantiate
theorems at inputs where the frontmatter text is never parsed. -/
def tomlStub : Str → Except Str Toml := fun _ => .ok (Toml.table [])

/-- Section of the document preceding the first delimiter occurrence. -/
def firstSection (md : Str) : Str := (splitDelim md).headI

theorem splitDelim_ne_nil : ∀ s, splitDelim s ≠ [] := by
  intro s
  induction s using splitDelim.induct with
  | case1 => simp [splitDelim]
  | case2 rest ih => simp [splitDelim]
  | case3 c rest hne hnil ih => exact absurd hnil ih
  | case4 c rest hne h t heq ih =>
    rw [splitDelim.eq_def]
    split
    · simp
    · simp
    · rename_i c2 rest2 hx
      injection hx with h1 h2
      subst h1; subst h2
      rw [heq]
      simp

theorem intercalate_nil (sep : List α) : List.intercalate sep [] = [] := by
  simp [List.intercalate]

theorem intercalate_single (sep x : List α) : List.intercalate sep [x] = x := by
  simp [List.intercalate]

theorem intercalate_cons2 (sep x y : List α) (t : List (List α)) :
    List.intercalate sep (x :: y :: t) = x ++ sep ++ List.intercalate sep (y :: t) := by
  simp [List.intercalate, List.intersperse_cons_cons]

/-- Rejoining the sections of `splitDelim` with the original separator
recovers the input: `splitDelim` is an exact model of Rust `str::split`. -/
theorem splitDelim_join :
    ∀ s, List.intercalate (chars ("+++\n")) (splitDelim s) = s := by
  intro s
  induction s using splitDelim.induct with
  | case1 => simp [splitDelim, intercalate_single]
  | case2 rest ih =>
    have hne := splitDelim_ne_nil rest
    cases hs : splitDelim rest with
    | nil => exact absurd hs hne
    | cons a t =>
      rw [splitDelim.eq_def]
      simp only [hs]
      rw [intercalate_cons2]
      rw [hs] at ih
      rw [ih]
      simp [chars]
  | case3 c rest hne hnil ih => exact absurd hnil (splitDelim_ne_nil rest)
  | case4 c rest hne h t heq ih =>
    rw [splitDelim.eq_def]
    split
    · rename_i hx
      simp at hx
    · rename_i rest2 hx
      injection hx with h1 h2
      exact (hne rest2 h1 h2).elim
    · rename_i c2 rest2 hx
      injection hx with h1 h2
      subst h1; subst h2
      rw [heq]
      rw [heq] at ih
      cases t with
      | nil => rw [intercalate_single] at ih ⊢; rw [← ih]
      | cons b t2 =>
        rw [intercalate_cons2] at ih ⊢
        rw [← ih]
        simp

theorem splitDelim_eq_single {s a : Str} (h : splitDelim s = [a]) : a = s := by
  have hj := splitDelim_join s
  rw [h, intercalate_single] at hj
  exact hj

theorem countDelim_lt_iff {s : Str} {n : Nat} :
    countDelim s < n ↔ (splitDelim s).length < n + 1 := by
  have h1 : 0 < (splitDelim s).length := List.length_pos.mpr (splitDelim_ne_nil s)
  unfold countDelim
  omega

/-- Claim C6 (amended): with fewer than two `"+++\n"` delimiter occurrences,
`extract_frontmatter` succeeds with the empty frontmatter table, and the body
is the input's sections re-joined with `"\n+++\n"`.  The body equals the input
exactly when the input contains no delimiter occurrence at all; a single
occurrence is re-inserted with an extra preceding newline. -/
theorem claim6_amended (tomlF : Str → Except Str Toml) (md : Str)
    (h : countDelim md < 2) :
    extractFrontmatter tomlF md =
      .ok (Toml.table [], List.intercalate nlDelim (splitDelim md)) ∧
    (countDelim md = 0 → extractFrontmatter tomlF md = .ok (Toml.table [], md)) := by
  have hlen : (splitDelim md).length < 3 := countDelim_lt_iff.mp h
  constructor
  · simp only [extractFrontmatter]
    rw [if_pos hlen]
  · intro h0
    have hlen1 : (splitDelim md).length = 1 := by
      have := List.length_pos.mpr (splitDelim_ne_nil md)
      unfold countDelim at h0
      omega
    obtain ⟨a, ha⟩ : ∃ a, splitDelim md = [a] := by
      cases hs : splitDelim md with
      | nil => exact absurd hs (splitDelim_ne_nil md)
      | cons x t =>
        rw [hs] at hlen1
        simp at hlen1
        exact ⟨x, by rw [hlen1]⟩
    have ham : a = md := splitDelim_eq_single ha
    simp only [extractFrontmatter]
    rw [if_pos hlen, ha, intercalate_single, ham]

/-- Claim C6 witness: a marker-free document round-trips unchanged. -/
theorem claim6_witness :
    extractFrontmatter tomlStub (chars ("# Hello, world!")) =
      .ok (Toml.table [], chars ("# Hello, world!")) :=
  (claim6_amended tomlStub (chars ("# Hello, world!")) (by decide)).2 (by decide)

/-- Claim C6 counterexample: with exactly one delimiter occurrence (fewer
than two), the body is NOT the input text — the delimiter is re-joined with
an extra leading newline, so `"a+++\nb"` comes back as `"a\n+++\nb"`. -/
theorem claim6_counterexample :
    countDelim (chars ("a+++\nb")) < 2 ∧
    extractFrontmatter tomlStub (chars ("a+++\nb")) =
      .ok (Toml.table [], chars ("a\n+++\nb")) ∧
    chars ("a\n+++\nb") ≠ chars ("a+++\nb") :=
  ⟨by decide, rfl, by decide⟩

/-- Claim C7 (amended): when the document has at least two delimiter
occurrences and non-whitespace text precedes the first delimiter,
`extract_frontmatter` fails with `ContentBeforeFrontmatter` carrying that
text.  (With fewer than two occurrences the frontmatter-less branch runs
instead and no such error is raised.) -/
theorem claim7_amended (tomlF : Str → Except Str Toml) (md : Str)
    (h2 : 2 ≤ countDelim md) (hw : allWs (firstSection md) = false) :
    extractFrontmatter tomlF md = .error (.contentBefore (firstSection md)) := by
  have hlen : ¬ (splitDelim md).length < 3 := by
    have h1 : 0 < (splitDelim md).length := List.length_pos.mpr (splitDelim_ne_nil md)
    unfold countDelim at h2
    omega
  obtain ⟨a, b, t, habt⟩ : ∃ a b t, splitDelim md = a :: b :: t := by
    cases hs : splitDelim md with
    | nil => exact absurd hs (splitDelim_ne_nil md)
    | cons x u =>
      cases u with
      | nil => rw [hs] at hlen; simp at hlen
      | cons y v => exact ⟨x, y, v, rfl⟩
  have hfs : firstSection md = a := by rw [firstSection, habt]; rfl
  rw [hfs] at hw ⊢
  simp only [extractFrontmatter]
  rw [if_neg hlen, habt]
  simp only [hw]
  rfl

/-- Claim C7 witness: two delimiters with leading junk fail as amended. -/
theorem claim7_witness :
    extractFrontmatter tomlStub (chars ("x+++\nfm\n+++\nbody")) =
      .error (.contentBefore (firstSection (chars ("x+++\nfm\n+++\nbody")))) ∧
    firstSection (chars ("x+++\nfm\n+++\nbody")) = chars ("x") :=
  ⟨claim7_amended tomlStub (chars ("x+++\nfm\n+++\nbody")) (by decide) (by decide),
   by decide⟩

/-- Claim C7 counterexample: `"x+++\ny"` has non-whitespace text before its
first (and only) `"+++\n"` delimiter line, yet `extract_frontmatter`
succeeds — the `ContentBeforeFrontmatter` check only runs once at least two
delimiter occurrences exist. -/
theorem claim7_counterexample :
    allWs (firstSection (chars ("x+++\ny"))) = false ∧
    extractFrontmatter tomlStub (chars ("x+++\ny")) =
      .ok (Toml.table [], chars ("x\n+++\ny")) ∧
    extractFrontmatter tomlStub (chars ("x+++\ny")) ≠
      .error (.contentBefore (chars ("x"))) :=
  ⟨by decide, rfl, by
    intro h
    rw [show extractFrontmatter tomlStub (chars ("x+++\ny")) =
      .ok (Toml.table [], chars ("x\n+++\ny")) from rfl] at h
    exact Except.noConfusion h⟩

/-! ## Paths and dates -/

/-- `std::path::PathBuf`, restricted to the shapes the generator builds: an
absolute-path flag (a leading `/`, i.e. a `RootDir` component) followed by
normal UTF-8 components. -/
structure RPath where
  abs : Bool
  comps : List Str
deriving Repr, DecidableEq

/-- A relative path literal from its components. -/
def rp (cs : List String) : RPath := ⟨false, cs.map chars⟩

/-- Split a file name into Rust's `file_stem` and `extension`: the extension
is the portion after the last `.`, unless there is no `.` or the only `.`
leads the name (as in `.gitignore`). -/
def stemExt (name : Str) : Str × Option Str :=
  let extRev := name.reverse.takeWhile (fun c => c ≠ '.')
  if extRev.length = name.length then (name, none)
  else if name.length - extRev.length - 1 = 0 then (name, none)
  else (name.take (name.length - extRev.length - 1), some extRev.reverse)

/-- Rust `Path::file_name` (the embedded paths have no `..` components). -/
def fileNameOf (p : RPath) : Option Str := p.comps.getLast?

/-- `path.extension().unwrap_or_default().to_str().unwrap_or_default()`. -/
def extOrEmpty (p : RPath) : Str :=
  match p.comps.getLast? with
  | none => []
  | some n => ((stemExt n).2).getD []

/-- Rust `Path::with_extension` (the empty extension removes it). -/
def pathWithExt (p : RPath) (e : Str) : RPath :=
  match p.comps.getLast? with
  | none => p
  | some n =>
    let stem := (stemExt n).1
    let newName := if e.isEmpty then stem else stem ++ '.' :: e
    ⟨p.abs, p.comps.dropLast ++ [newName]⟩

/-- `Path::to_string_lossy` for valid-UTF-8 paths. -/
def displayP (p : RPath) : Str :=
  (if p.abs then ['/'] else []) ++ List.intercalate (['/']) p.comps

/-- Rust `Path::join` with the embedded (normal-components) paths. -/
def joinP (a b : RPath) : RPath :=
  if b.abs then b else ⟨a.abs, a.comps ++ b.comps⟩

/-- Rust `Path::parent`, `none` exactly for the root/empty path. -/
def parentOf (p : RPath) : Option RPath :=
  match p.comps with
  | [] => none
  | _ => some ⟨p.abs, p.comps.dropLast⟩

/-- `chrono::NaiveDate`, as plain year/month/day numerals (the generator
only ever parses unsigned four-digit years). -/
structure RDate where
  year : Nat
  month : Nat
  day : Nat
deriving Repr, DecidableEq

def isLeap (y : Nat) : Bool := decide (y % 4 = 0 ∧ (y % 100 ≠ 0 ∨ y % 400 = 0))

def daysInMonth (y m : Nat) : Nat :=
  if m = 2 then (if isLeap y then 29 else 28)
  else if m = 4 ∨ m = 6 ∨ m = 9 ∨ m = 11 then 30
  else 31

/-- Proleptic-Gregorian validity inside chrono's `NaiveDate` year range. -/
def validYmd (y m d : Nat) : Bool :=
  decide (1 ≤ m ∧ m ≤ 12 ∧ 1 ≤ d) && decide (d ≤ daysInMonth y m) &&
  decide (y ≤ 262142)

def strToNat (s : Str) : Nat := s.foldl (fun a c => a * 10 + (c.toNat - 48)) 0

/-- Dash-splitting of a string, Rust `str::split('-')`. -/
def splitDash : Str → List Str
  | [] => [[]]
  | '-' :: rest => [] :: splitDash rest
  | c :: rest =>
    match splitDash rest with
    | [] => [[c]]
    | h :: t => (c :: h) :: t

/-- `chrono::NaiveDate::parse_from_str(s, "%Y-%m-%d")`: three dash-separated
all-digit components (month and day at most two digits wide), validated as a
real proleptic-Gregorian date in chrono's year range.  Chrono's optional year
sign is not modelled: the generator builds the input from dash-split file-name
parts, so a sign would have produced an extra empty component instead. -/
def parseYmd (s : Str) : Option RDate :=
  match splitDash s with
  | [y, m, d] =>
    if !y.isEmpty && y.all (fun c => c.isDigit) &&
       !m.isEmpty && decide (m.length ≤ 2) && m.all (fun c => c.isDigit) &&
       !d.isEmpty && decide (d.length ≤ 2) && d.all (fun c => c.isDigit) then
      let yv := strToNat y
      let mv := strToNat m
      let dv := strToNat d
      if validYmd yv mv dv then some ⟨yv, mv, dv⟩ else none
    else none
  | _ => none

/-- Decimal digits of `n`, with an explicit fuel so the definition is
structural (the fuel `n` always suffices). -/
def natDigitsF : Nat → Nat → Str
  | 0, n => [Char.ofNat (48 + n % 10)]
  | fuel + 1, n =>
    if n < 10 then [Char.ofNat (48 + n)]
    else natDigitsF fuel (n / 10) ++ [Char.ofNat (48 + n % 10)]

def natDigits (n : Nat) : Str := natDigitsF n n

/-- Zero-padded numeral, as produced by chrono's `%Y` (width 4) and
`%m` (width 2) format items for in-range values. -/
def padZeros (w : Nat) (n : Nat) : Str :=
  let s := natDigits n
  List.replicate (w - s.length) '0' ++ s

/-- `render::Error` from `src/render.rs`.  Two embedding notes: the snapshot's
`render.rs` declares `Path(PathBuf)` with one field while `post.rs`/`util.rs`
construct it with a path and a message, so the constructor carries both and
`page.rs` call sites pass the empty message; `ParseDate` drops the opaque
`chrono::ParseError` payload. -/
inductive RenderError where
  | tera (msg : Str)
  | pathErr (p : RPath) (msg : Str)
  | readFile (msg : Str)
  | markdown (e : PError)
  | writeFile (msg : Str)
  | parseFrontmatter (msg : Str)
  | missingField (s : Str)
  | extractDate (s : Str)
  | parseDate (s : Str)
  | stripPrefixErr (p : RPath)
  | createDir (msg : Str)
  | copyDir (msg : Str)
deriving Repr, DecidableEq

/-! ## Post path resolution (`src/post.rs`) -/

structure PostFile where
  date : RDate
  slug : Str
  extension : Str
  url : RPath
  input_path : RPath
  output_path : RPath
deriving Repr, DecidableEq

/-- `Post::VALID_EXTENSIONS`. -/
def postValidExts : List Str := [chars ("md"), chars ("markdown")]

/-- Dash-parts of the extension-stripped file name of a path (the list
`PostFile::extract_date_and_slug` scrutinises); empty when the path has no
file name. -/
def partsOfPath (p : RPath) : List Str :=
  match (pathWithExt p []).comps.getLast? with
  | none => []
  | some n => splitDash n

/-- `PostFile::extract_date_and_slug` from `src/post.rs` (lines 98-123): the
extension is stripped, the file name is dash-split into at least four parts,
the first three re-joined with `-` parse as a `%Y-%m-%d` date and the rest
re-joined with `-` form the slug. -/
def extractDateAndSlug (path : RPath) : Except RenderError (RDate × Str) :=
  match (pathWithExt path []).comps.getLast? with
  | none => .error (.extractDate (displayP (pathWithExt path [])))
  | some fileName =>
    if (splitDash fileName).length < 4 then
      .error (.extractDate (displayP (pathWithExt path [])))
    else
      match parseYmd (List.intercalate (['-']) ((splitDash fileName).take 3)) with
      | none => .error (.parseDate (displayP (pathWithExt path [])))
      | some d => .ok (d, List.intercalate (['-']) ((splitDash fileName).drop 3))

/-- `impl TryFrom<PathBuf> for PostFile` from `src/post.rs` (lines 53-82).
The url/output-path `format!` strings become component lists: the url is
absolute (`/{Y}/{m}/{slug}.html`), the output path relative. -/
def postFileTryFrom (path : RPath) : Except RenderError PostFile :=
  match extractDateAndSlug path with
  | .error e => .error e
  | .ok (date, slug) =>
    if extOrEmpty path ∈ postValidExts then
      .ok ⟨date, slug, extOrEmpty path,
           ⟨true, [padZeros 4 date.year, padZeros 2 date.month,
                   slug ++ chars (".html")]⟩,
           path,
           ⟨false, [padZeros 4 date.year, padZeros 2 date.month,
                   slug ++ chars (".html")]⟩⟩
    else
      .error (.pathErr path (chars ("not a valid extension")))

/-! ## Page path resolution (`src/page.rs`) -/

structure PageFile where
  slug : Str
  extension : Str
  filename : Str
  url : RPath
  input_path : RPath
  output_path : RPath
deriving Repr, DecidableEq

/-- `Page::VALID_EXTENSIONS`. -/
def pageValidExts : List Str :=
  [chars ("md"), chars ("markdown"), chars ("html"), chars ("xml")]

/-- `Page::extension_is_markdown`. -/
def extIsMarkdown (e : Str) : Bool := e == chars ("md") || e == chars ("markdown")

/-- `Path::strip_prefix` with a one-component relative prefix (the only way
the generator calls it on document paths). -/
def stripPre (pre : Str) (p : RPath) : Except RenderError RPath :=
  match p.comps with
  | c :: rest =>
    if c = pre ∧ p.abs = false then .ok ⟨false, rest⟩
    else .error (.stripPrefixErr p)
  | [] => .error (.stripPrefixErr p)

/-- `impl TryFrom<PathBuf> for PageFile` from `src/page.rs` (lines 54-92).
The final `path.file_name().unwrap()` cannot panic when the slug lookup
succeeded, so that branch is modelled as an (unreachable) path error. -/
def pageFileTryFrom (path : RPath) : Except RenderError PageFile :=
  match (pathWithExt path []).comps.getLast? with
  | none => .error (.pathErr path [])
  | some slug =>
    if extOrEmpty path ∈ pageValidExts then
      match stripPre (chars ("pages")) path with
      | .error e => .error e
      | .ok stripped =>
        match path.comps.getLast? with
        | none => .error (.pathErr path [])
        | some fname =>
          .ok ⟨slug, extOrEmpty path, fname,
               pathWithExt stripped
                 (if extIsMarkdown (extOrEmpty path) then chars ("html")
                  else extOrEmpty path),
               path,
               pathWithExt stripped
                 (if extIsMarkdown (extOrEmpty path) then chars ("html")
                  else extOrEmpty path)⟩
    else
      .error (.pathErr path [])

/-! ## Claims C2, C9, C10 -/

/-- The `PageFile` the embedded code produces for `pages/index.html`: note
the `url` equals the relative `output_path`, without a leading `/`. -/
def pageFileIndex : PageFile :=
  ⟨chars ("index"), chars ("html"), chars ("index.html"),
   ⟨false, [chars ("index.html")]⟩,
   rp (["pages", "index.html"]),
   ⟨false, [chars ("index.html")]⟩⟩

/-- Claim C2 (code bug, evaluated at the failing input): resolving
`pages/index.html` yields slug `index` and output path `index.html` as
claimed, but the url is the bare relative path `index.html` — the claimed
(and unit-tested) leading `/` is never prepended in
`impl TryFrom<PathBuf> for PageFile`. -/
theorem claim2_code_eval :
    pageFileTryFrom (rp (["pages", "index.html"])) = .ok pageFileIndex ∧
    pageFileIndex.slug = chars ("index") ∧
    pageFileIndex.output_path = ⟨false, [chars ("index.html")]⟩ ∧
    pageFileIndex.url = pageFileIndex.output_path ∧
    pageFileIndex.url ≠ ⟨true, [chars ("index.html")]⟩ :=
  ⟨rfl, rfl, rfl, rfl, by decide⟩

theorem extractDateAndSlug_ok {p : RPath} {d : RDate} {s : Str}
    (h : extractDateAndSlug p = .ok (d, s)) :
    4 ≤ (partsOfPath p).length ∧
    s = List.intercalate (['-']) ((partsOfPath p).drop 3) ∧
    parseYmd (List.intercalate (['-']) ((partsOfPath p).take 3)) = some d := by
  unfold extractDateAndSlug at h
  cases hl : (pathWithExt p []).comps.getLast? with
  | none => simp only [hl] at h; exact Except.noConfusion h
  | some n =>
    simp only [hl] at h
    have hp : partsOfPath p = splitDash n := by unfold partsOfPath; rw [hl]
    rw [hp]
    split at h
    · exact absurd h (by simp)
    · rename_i hlen
      split at h
      · exact absurd h (by simp)
      · rename_i d0 hparse
        simp only [Except.ok.injEq, Prod.mk.injEq] at h
        obtain ⟨hd, hs⟩ := h
        subst hd; subst hs
        exact ⟨by omega, rfl, hparse⟩

/-- The `PostFile` resolved from `posts/2024-12-01-first.md`. -/
def postFileFirst : PostFile :=
  ⟨⟨2024, 12, 1⟩, chars ("first"), chars ("md"),
   ⟨true, [chars ("2024"), chars ("12"), chars ("first.html")]⟩,
   rp (["posts", "2024-12-01-first.md"]),
   ⟨false, [chars ("2024"), chars ("12"), chars ("first.html")]⟩⟩

/-- Claim C9 (confirmed): `posts/2024-12-01-first.md` resolves to slug
`first`, date 2024-12-01, output path `2024/12/first.html` and url
`/2024/12/first.html`; and any successful post path resolution requires at
least four dash-separated parts in the extension-stripped file name, with the
parts after the date re-joined by `-` as the slug and the url/output path
built from the zero-padded year and month. -/
theorem claim9_theorem :
    postFileTryFrom (rp (["posts", "2024-12-01-first.md"])) = .ok postFileFirst ∧
    (∀ p pf, postFileTryFrom p = .ok pf →
      4 ≤ (partsOfPath p).length ∧
      pf.slug = List.intercalate (['-']) ((partsOfPath p).drop 3) ∧
      pf.url = ⟨true, [padZeros 4 pf.date.year, padZeros 2 pf.date.month,
                       pf.slug ++ chars (".html")]⟩ ∧
      pf.output_path = ⟨false, [padZeros 4 pf.date.year, padZeros 2 pf.date.month,
                       pf.slug ++ chars (".html")]⟩ ∧
      pf.input_path = p ∧
      pf.extension ∈ postValidExts) := by
  constructor
  · rfl
  · intro p pf h
    unfold postFileTryFrom at h
    cases he : extractDateAndSlug p with
    | error e => simp only [he] at h; exact Except.noConfusion h
    | ok ds =>
      obtain ⟨d0, s0⟩ := ds
      simp only [he] at h
      split at h
      · rename_i hext
        simp only [Except.ok.injEq] at h
        subst h
        obtain ⟨h1, h2, _⟩ := extractDateAndSlug_ok he
        exact ⟨h1, h2, rfl, rfl, rfl, hext⟩
      · exact absurd h (by simp)

/-- Claim C9 witness: the general clauses instantiated at the example. -/
theorem claim9_witness :
    4 ≤ (partsOfPath (rp (["posts", "2024-12-01-first.md"]))).length ∧
    postFileFirst.slug =
      List.intercalate (['-'])
        ((partsOfPath (rp (["posts", "2024-12-01-first.md"]))).drop 3) ∧
    postFileFirst.url =
      ⟨true, [padZeros 4 postFileFirst.date.year, padZeros 2 postFileFirst.date.month,
              postFileFirst.slug ++ chars (".html")]⟩ ∧
    postFileFirst.output_path =
      ⟨false, [padZeros 4 postFileFirst.date.year, padZeros 2 postFileFirst.date.month,
              postFileFirst.slug ++ chars (".html")]⟩ ∧
    postFileFirst.input_path = rp (["posts", "2024-12-01-first.md"]) ∧
    postFileFirst.extension ∈ postValidExts :=
  claim9_theorem.2 (rp (["posts", "2024-12-01-first.md"])) postFileFirst
    claim9_theorem.1

/-- Claim C10 (confirmed): the file-name shape check of
`extract_date_and_slug` runs before the extension check in
`PostFile::try_from` — fewer than four dash-parts yields `ExtractDate`
whatever the extension, and the invalid-extension `Path` error can only
arise once the shape (and date parse) succeeded. -/
theorem claim10_theorem :
    (∀ p, (partsOfPath p).length < 4 →
       postFileTryFrom p = .error (.extractDate (displayP (pathWithExt p [])))) ∧
    (∀ p q m, postFileTryFrom p = .error (.pathErr q m) →
       4 ≤ (partsOfPath p).length) := by
  constructor
  · intro p hlt
    have he : extractDateAndSlug p =
        .error (.extractDate (displayP (pathWithExt p []))) := by
      unfold extractDateAndSlug
      cases hl : (pathWithExt p []).comps.getLast? with
      | none => simp only [hl]
      | some n =>
        have hp : partsOfPath p = splitDash n := by unfold partsOfPath; rw [hl]
        rw [hp] at hlt
        simp only [hl]
        rw [if_pos hlt]
    unfold postFileTryFrom
    rw [he]
  · intro p q m h
    unfold postFileTryFrom at h
    cases he : extractDateAndSlug p with
    | error e =>
      rw [he] at h
      simp only [Except.error.injEq] at h
      subst h
      unfold extractDateAndSlug at he
      cases hl : (pathWithExt p []).comps.getLast? with
      | none => simp only [hl] at he; simp at he
      | some n =>
        simp only [hl] at he
        split at he <;> [exact absurd he (by simp); skip]
        split at he <;> exact absurd he (by simp)
    | ok ds =>
      obtain ⟨d0, s0⟩ := ds
      exact (extractDateAndSlug_ok he).1

/-- Claim C10 witness: `posts/hello.txt` has one dash-part and an invalid
extension, and resolution reports the date-shape error. -/
theorem claim10_witness :
    (partsOfPath (rp (["posts", "hello.txt"]))).length < 4 ∧
    postFileTryFrom (rp (["posts", "hello.txt"])) =
      .error (.extractDate (displayP (pathWithExt (rp (["posts", "hello.txt"])) []))) ∧
    displayP (pathWithExt (rp (["posts", "hello.txt"])) []) = chars ("posts/hello") :=
  ⟨by decide, claim10_theorem.1 (rp (["posts", "hello.txt"])) (by decide), by decide⟩

/-! ## Markdown rendering with excerpt extraction (`src/parser.rs`) -/

/-- `pulldown_cmark::Event`, abstracted to the shapes `parse_markdown`
distinguishes: inline HTML, the start of a code block (with the fenced
language token, or `none` for an indented block), the end of a code block,
text, and any other event (with an opaque payload). -/
inductive MdEvent where
  | html (s : Str)
  | codeStart (lang : Option Str)
  | codeEnd
  | text (s : Str)
  | other (s : Str)
deriving Repr, DecidableEq

/-- The excerpt marker as it reaches `parse_markdown`'s HTML-event
comparison: `"<!--more-->\n"`. -/
def moreMarker : Str := chars ("<!--more-->\n")

/-- The mutable state of `parse_markdown`'s event loop: fields in source
order `still_excerpting`, `in_codeblock`, `codeblock_contents`,
`syntax_extension`, `highlighted_events`, `excerpt_events`. -/
structure MdAcc where
  stillExcerpting : Bool
  inCodeblock : Bool
  codeblockContents : Str
  syntaxExt : Str
  highlighted : List MdEvent
  excerptEvs : List MdEvent
deriving Repr, DecidableEq

/-- One iteration of the `for event in events` loop of `parse_markdown`
(`src/parser.rs` lines 88-146).  `f` is the external syntect highlighter
(`highlighted_html_for_string` with its `unwrap_or` fallback), taking the
current syntax token and the buffered code-block contents.  Note that HTML
events are never pushed to either output list, and that an indented code
block keeps the previous `syntax_extension`. -/
def mdStep (f : Str → Str → Str) (st : MdAcc) (e : MdEvent) : MdAcc :=
  match e with
  | .html s =>
    if s = moreMarker then
      ⟨false, st.inCodeblock, st.codeblockContents, st.syntaxExt,
       st.highlighted, st.excerptEvs⟩
    else st
  | .codeStart lang =>
    ⟨st.stillExcerpting, true, [],
     (match lang with | some l => l | none => st.syntaxExt),
     st.highlighted, st.excerptEvs⟩
  | .codeEnd =>
    ⟨st.stillExcerpting, false, st.codeblockContents, st.syntaxExt,
     st.highlighted ++ [.html (f st.syntaxExt st.codeblockContents)],
     if st.stillExcerpting then
       st.excerptEvs ++ [.html (f st.syntaxExt st.codeblockContents)]
     else st.excerptEvs⟩
  | .text t =>
    if st.inCodeblock then
      ⟨st.stillExcerpting, st.inCodeblock, st.codeblockContents ++ t,
       st.syntaxExt, st.highlighted, st.excerptEvs⟩
    else
      ⟨st.stillExcerpting, st.inCodeblock, st.codeblockContents, st.syntaxExt,
       st.highlighted ++ [.text t],
       if st.stillExcerpting then st.excerptEvs ++ [.text t] else st.excerptEvs⟩
  | .other s =>
    ⟨st.stillExcerpting, st.inCodeblock, st.codeblockContents, st.syntaxExt,
     st.highlighted ++ [.other s],
     if st.stillExcerpting then st.excerptEvs ++ [.other s] else st.excerptEvs⟩

/-- The whole event loop, from the initial state. -/
def mdProcess (f : Str → Str → Str) (evs : List MdEvent) : MdAcc :=
  evs.foldl (mdStep f) ⟨true, false, [], [], [], []⟩

/-- `parser::FrontmatterAndBody` from the snapshot's `src/parser.rs`
(lines 16-21): note `excerpt` is a plain `String`, not an `Option`. -/
structure FrontmatterAndBody where
  frontmatter : Toml
  body : Str
  excerpt : Str

/-- `parser::parse_markdown` from `src/parser.rs` (lines 74-156).
`mdParse` is the external `pulldown_cmark::Parser`, `f` the syntect
highlighting step, `re` the external `pulldown_cmark::html::push_html`
event renderer. -/
def parseMarkdownSrc (tomlF : Str → Except Str Toml)
    (mdParse : Str → List MdEvent) (f : Str → Str → Str)
    (re : List MdEvent → Str) (md : Str) : Except PError FrontmatterAndBody :=
  match extractFrontmatter tomlF md with
  | .error e => .error e
  | .ok (fm, body) =>
    .ok ⟨fm, re (mdProcess f (mdParse body)).highlighted,
         re (mdProcess f (mdParse body)).excerptEvs⟩

theorem mdStep_preserve (f : Str → Str → Str) (st : MdAcc) (e : MdEvent)
    (h1 : st.stillExcerpting = true) (h2 : st.excerptEvs = st.highlighted)
    (hm : ∀ s, e = MdEvent.html s → s ≠ moreMarker) :
    (mdStep f st e).stillExcerpting = true ∧
    (mdStep f st e).excerptEvs = (mdStep f st e).highlighted := by
  cases e with
  | html s =>
    have hne : ¬ s = moreMarker := hm s rfl
    simp [mdStep, hne, h1, h2]
  | codeStart lang => simp [mdStep, h1, h2]
  | codeEnd => simp [mdStep, h1, h2]
  | text t =>
    by_cases hc : st.inCodeblock
    · simp [mdStep, hc, h1, h2]
    · simp [mdStep, hc, h1, h2]
  | other s => simp [mdStep, h1, h2]

theorem mdFold_no_marker (f : Str → Str → Str) :
    ∀ (evs : List MdEvent) (st : MdAcc),
      st.stillExcerpting = true → st.excerptEvs = st.highlighted →
      (∀ s, MdEvent.html s ∈ evs → s ≠ moreMarker) →
      (evs.foldl (mdStep f) st).excerptEvs = (evs.foldl (mdStep f) st).highlighted := by
  intro evs
  induction evs with
  | nil => intro st h1 h2 h3; simpa using h2
  | cons e rest ih =>
    intro st h1 h2 h3
    have step := mdStep_preserve f st e h1 h2
      (fun s hs => h3 s (by rw [hs] at *; exact List.mem_cons_self _ _))
    exact ih (mdStep f st e) step.1 step.2
      (fun s hs => h3 s (List.mem_cons_of_mem _ hs))

/-- Claim C4 (code bug, the snapshot's behaviour at marker-free inputs):
`parse_markdown`'s `FrontmatterAndBody.excerpt` is a plain `String`, never an
`Option`; when the body's event stream contains no `"<!--more-->\n"` HTML
event the excerpt events coincide with the body events, so the rendered
excerpt equals the full body instead of being absent (`None`). -/
theorem claim4_code_eval (tomlF : Str → Except Str Toml)
    (mdParse : Str → List MdEvent) (f : Str → Str → Str)
    (re : List MdEvent → Str) (md : Str) (fm : Toml) (body : Str)
    (hex : extractFrontmatter tomlF md = .ok (fm, body))
    (hnm : ∀ s, MdEvent.html s ∈ mdParse body → s ≠ moreMarker) :
    ∃ fb, parseMarkdownSrc tomlF mdParse f re md = .ok fb ∧
      fb.excerpt = fb.body ∧ fb.frontmatter = fm := by
  refine ⟨⟨fm, re (mdProcess f (mdParse body)).highlighted,
           re (mdProcess f (mdParse body)).excerptEvs⟩, ?_, ?_, rfl⟩
  · unfold parseMarkdownSrc
    rw [hex]
  · exact congrArg re
      (mdFold_no_marker f (mdParse body) ⟨true, false, [], [], [], []⟩ rfl rfl hnm)

/-- A concrete `pulldown_cmark::Parser` interpretation: the body becomes one
opaque event. -/
def mdParseStub : Str → List MdEvent := fun s => [.other s]

/-- A concrete syntect interpretation: highlighting is the identity on the
code contents. -/
def highlightStub : Str → Str → Str := fun _ s => s

/-- A concrete `push_html` interpretation: concatenate event payloads. -/
def renderStub : List MdEvent → Str :=
  fun evs => evs.foldl (fun acc e =>
    acc ++ (match e with
            | .html s => s
            | .codeStart _ => []
            | .codeEnd => []
            | .text s => s
            | .other s => s)) []

/-- Claim C4 witness: at the marker-free document `"# Hello, world!"` the
excerpt comes back equal to the full body (not absent). -/
theorem claim4_witness :
    ∃ fb, parseMarkdownSrc tomlStub mdParseStub highlightStub renderStub
        (chars ("# Hello, world!")) = .ok fb ∧
      fb.excerpt = fb.body ∧ fb.frontmatter = Toml.table [] :=
  claim4_code_eval tomlStub mdParseStub highlightStub renderStub
    (chars ("# Hello, world!")) (Toml.table []) (chars ("# Hello, world!"))
    (by rfl)
    (by intro s hs; simp [mdParseStub] at hs)

/-! ## Document assembly (`src/post.rs`, `src/page.rs`) -/

/-- The result type of `parser::parse` as its callers and tests use it:
frontmatter, body HTML, and an optional excerpt. -/
structure FmBodyExcerpt where
  frontmatter : Toml
  body : Str
  excerpt : Option Str

/-- Modelled from the spec: `parser::parse` — the function `src/post.rs`
(line 182) calls and `tests/it/parser.rs` tests, but which is absent from
the `src/` snapshot (the snapshot's `parser.rs` only defines
`extract_frontmatter` and `parse_markdown`).  Per spec §4.2/§3 it splits the
frontmatter with `extract_frontmatter`, renders the body through the same
code-highlighting event loop, and returns `excerpt_html` as `Some` of the
events collected before the `<!--more-->` marker exactly when that marker
occurred in the body's event stream, and `None` otherwise. -/
def parseSpec (tomlF : Str → Except Str Toml) (mdParse : Str → List MdEvent)
    (f : Str → Str → Str) (re : List MdEvent → Str) (md : Str) :
    Except PError FmBodyExcerpt :=
  match extractFrontmatter tomlF md with
  | .error e => .error e
  | .ok (fm, body) =>
    .ok ⟨fm, re (mdProcess f (mdParse body)).highlighted,
         if (mdParse body).any (fun e => decide (e = MdEvent.html moreMarker)) then
           some (re (mdProcess f (mdParse body)).excerptEvs)
         else none⟩

/-- `tomlGet`: `toml::Value::get`, `None` on non-tables. -/
def tomlGet (t : Toml) (k : Str) : Option Toml :=
  match t with
  | .table kvs => (kvs.find? (fun kv => kv.1 == k)).map (fun kv => kv.2)
  | _ => none

/-- The shared shape of `PageFrontmatter` and `PostFrontmatter`:
`{ title: String, template: Option<String> }`. -/
structure FmSchema where
  title : Str
  template : Option Str
deriving Repr, DecidableEq

/-- Serde decoding of `PageFrontmatter`/`PostFrontmatter` from a
`toml::Value`: `title` is a mandatory string, `template` an optional string,
unknown keys are ignored.  The error payloads abstract serde's message
texts; the claims only depend on which constructor results. -/
def decodeFm (t : Toml) : Except Str FmSchema :=
  match tomlGet t (chars ("title")) with
  | some (.str s) =>
    (match tomlGet t (chars ("template")) with
     | none => .ok ⟨s, none⟩
     | some (.str tp) => .ok ⟨s, some tp⟩
     | some _ => .error (chars ("invalid type: template")))
  | some _ => .error (chars ("invalid type: title"))
  | none => .error (chars ("missing field title"))

/-- The `format!("frontmatter for {:?}: {:?}", input_path, e)` message. -/
def fmErrMsg (p : RPath) (e : Str) : Str :=
  chars ("frontmatter for ") ++ displayP p ++ chars (": ") ++ e

/-- `post::DateStruct`. -/
structure DateStruct where
  year : Nat
  month : Nat
  day : Nat
deriving Repr, DecidableEq

/-- `date.format("%Y-%m-%d")`. -/
def dateFmtYmd (d : RDate) : Str :=
  padZeros 4 d.year ++ '-' :: padZeros 2 d.month ++ '-' :: padZeros 2 d.day

/-- `post::Post`, fields in declaration order (the order `derive(Ord)`
compares them in). -/
structure Post where
  input_path : RPath
  output_path : RPath
  title : Str
  template : Str
  content : Str
  excerpt : Str
  date : RDate
  date_str : Str
  date_struct : DateStruct
  url : RPath
  slug : Str
deriving Repr, DecidableEq

/-- `<Post as Render>::from_content` from `src/post.rs` (lines 181-207);
uses the spec-modelled `parser::parse`. -/
def postFromContent (tomlF : Str → Except Str Toml)
    (mdParse : Str → List MdEvent) (f : Str → Str → Str)
    (re : List MdEvent → Str) (pf : PostFile) (content : Str) :
    Except RenderError Post :=
  match parseSpec tomlF mdParse f re content with
  | .error e => .error (.markdown e)
  | .ok parsed =>
    match decodeFm parsed.frontmatter with
    | .error e => .error (.parseFrontmatter (fmErrMsg pf.input_path e))
    | .ok fmv =>
      .ok ⟨pf.input_path, pf.output_path, fmv.title,
           (fmv.template.getD (chars ("post"))) ++ chars (".html"),
           parsed.body, parsed.excerpt.getD parsed.body,
           pf.date, dateFmtYmd pf.date,
           ⟨pf.date.year, pf.date.month, pf.date.day⟩,
           pf.url, pf.slug⟩

/-- `page::Page`, fields in declaration order. -/
structure Page where
  input_path : RPath
  output_path : RPath
  url : RPath
  title : Str
  template : Str
  content : Str
  slug : Str
  extension : Str
deriving Repr, DecidableEq

/-- `Page::from_non_markdown_content` from `src/page.rs` (lines 127-151):
the declared `template` is decoded but then ignored — the template is
unconditionally `"default.html"`. -/
def pageFromNonMarkdownContent (tomlF : Str → Except Str Toml)
    (pf : PageFile) (content : Str) : Except RenderError Page :=
  match extractFrontmatter tomlF content with
  | .error e => .error (.markdown e)
  | .ok (fm, body) =>
    match decodeFm fm with
    | .error e => .error (.parseFrontmatter (fmErrMsg pf.input_path e))
    | .ok fmv =>
      .ok ⟨pf.input_path, pf.output_path, pf.url, fmv.title,
           chars ("default") ++ chars (".html"), body, pf.slug, pf.extension⟩

/-- `Page::from_markdown_content` from `src/page.rs` (lines 153-177); uses
the snapshot's `parser::parse_markdown` (whose excerpt pages ignore). -/
def pageFromMarkdownContent (tomlF : Str → Except Str Toml)
    (mdParse : Str → List MdEvent) (f : Str → Str → Str)
    (re : List MdEvent → Str) (pf : PageFile) (content : Str) :
    Except RenderError Page :=
  match parseMarkdownSrc tomlF mdParse f re content with
  | .error e => .error (.markdown e)
  | .ok parsed =>
    match decodeFm parsed.frontmatter with
    | .error e => .error (.parseFrontmatter (fmErrMsg pf.input_path e))
    | .ok fmv =>
      .ok ⟨pf.input_path, pf.output_path, pf.url, fmv.title,
           (fmv.template.getD (chars ("default"))) ++ chars (".html"),
           parsed.body, pf.slug, pf.extension⟩

/-- `<Page as Render>::from_content` from `src/page.rs` (lines 194-202). -/
def pageFromContent (tomlF : Str → Except Str Toml)
    (mdParse : Str → List MdEvent) (f : Str → Str → Str)
    (re : List MdEvent → Str) (pf : PageFile) (content : Str) :
    Except RenderError Page :=
  if extIsMarkdown pf.extension then
    pageFromMarkdownContent tomlF mdParse f re pf content
  else
    pageFromNonMarkdownContent tomlF pf content

/-! ## Template contexts (`to_context` / `render`) -/

/-- A value inserted into a `tera::Context`. -/
inductive CtxVal where
  | str (s : Str)
  | path (p : RPath)
  | date (d : RDate)
  | dateStruct (ds : DateStruct)
  | postList (ps : List Post)

/-- A `tera::Context`: an insertion sequence of key/value pairs (the
generator never inserts the same key twice in one context). -/
abbrev Ctx := List (Str × CtxVal)

/-- Context lookup by key. -/
def ctxGet (c : Ctx) (k : Str) : Option CtxVal :=
  (c.find? (fun kv => kv.1 == k)).map (fun kv => kv.2)

/-- `<Post as Render>::to_context` from `src/post.rs` (lines 161-179): note
the excerpt is inserted under the key `"context"`, and there is no key
named `"excerpt"`. -/
def toContextPost (p : Post) : Ctx :=
  [(chars ("title"), .str p.title),
   (chars ("path"), .path p.output_path),
   (chars ("url"), .path p.url),
   (chars ("date"), .date p.date),
   (chars ("date_str"), .str p.date_str),
   (chars ("date_struct"), .dateStruct ⟨p.date.year, p.date.month, p.date.day⟩),
   (chars ("body"), .str p.content),
   (chars ("context"), .str p.excerpt),
   (chars ("slug"), .str p.slug),
   (chars ("next"), .str (chars ("nice")))]

/-- The context a post's template render receives: `to_context` plus the
`posts` collection inserted by `Post::render` (`src/post.rs` line 216). -/
def renderContextPost (p : Post) (posts : List Post) : Ctx :=
  toContextPost p ++ [(chars ("posts"), .postList posts)]

/-- `<Page as Render>::to_context` from `src/page.rs` (lines 183-192);
`now` stands for the ambient `Utc::now().date_naive()`. -/
def toContextPage (now : RDate) (p : Page) : Ctx :=
  [(chars ("title"), .str p.title),
   (chars ("path"), .path p.output_path),
   (chars ("url"), .path p.url),
   (chars ("body"), .str p.content),
   (chars ("slug"), .str p.slug),
   (chars ("current_date"), .date now)]

/-- The context a page's template render receives. -/
def renderContextPage (now : RDate) (p : Page) (posts : List Post) : Ctx :=
  toContextPage now p ++ [(chars ("posts"), .postList posts)]

/-! ## Claim C3 -/

/-- The `toml::from_str` interpretation for the example post frontmatter. -/
def tomlFFirst : Str → Except Str Toml := fun s =>
  if s = chars ("title = \"First Post\"\n") then
    .ok (Toml.table [(chars ("title"), Toml.str (chars ("First Post")))])
  else .error []

/-- The `Post` assembled from `posts/2024-12-01-first.md` with content
`+++\ntitle = "First Post"\n+++\nThis is my first post.` under the stub
collaborator interpretations. -/
def postFirst : Post :=
  ⟨rp (["posts", "2024-12-01-first.md"]),
   ⟨false, [chars ("2024"), chars ("12"), chars ("first.html")]⟩,
   chars ("First Post"), chars ("post.html"),
   chars ("This is my first post."), chars ("This is my first post."),
   ⟨2024, 12, 1⟩, chars ("2024-12-01"), ⟨2024, 12, 1⟩,
   ⟨true, [chars ("2024"), chars ("12"), chars ("first.html")]⟩,
   chars ("first")⟩

/-- Claim C3 counterexample: a concrete post assembled by `from_content`
whose engine context has NO key named `"excerpt"` — the excerpt value sits
under the key `"context"` instead. -/
theorem claim3_counterexample :
    postFromContent tomlFFirst mdParseStub highlightStub renderStub
      postFileFirst
      (chars ("+++\ntitle = \"First Post\"\n+++\nThis is my first post.")) =
      .ok postFirst ∧
    ctxGet (renderContextPost postFirst []) (chars ("excerpt")) = none ∧
    ctxGet (renderContextPost postFirst []) (chars ("context")) =
      some (.str (chars ("This is my first post."))) :=
  ⟨rfl, rfl, rfl⟩

/-- Claim C3 (amended): every post render context carries the excerpt value
under the key `"context"` (and no `"excerpt"` key exists); the value is the
excerpt HTML when the body contained the marker and the full body HTML
otherwise, via `excerpt: parsed.excerpt.unwrap_or(parsed.body)` in
`Post::from_content`. -/
theorem claim3_amended :
    (∀ (p : Post) (posts : List Post),
       ctxGet (renderContextPost p posts) (chars ("context")) =
         some (.str p.excerpt) ∧
       ctxGet (renderContextPost p posts) (chars ("excerpt")) = none) ∧
    (∀ tomlF mdParse f re pf content p,
       postFromContent tomlF mdParse f re pf content = .ok p →
       ∃ parsed, parseSpec tomlF mdParse f re content = .ok parsed ∧
         p.excerpt = parsed.excerpt.getD parsed.body ∧
         p.content = parsed.body) := by
  constructor
  · intro p posts
    exact ⟨rfl, rfl⟩
  · intro tomlF mdParse f re pf content p h
    unfold postFromContent at h
    cases hp : parseSpec tomlF mdParse f re content with
    | error e => simp only [hp] at h; exact Except.noConfusion h
    | ok parsed =>
      simp only [hp] at h
      cases hd : decodeFm parsed.frontmatter with
      | error e => simp only [hd] at h; exact Except.noConfusion h
      | ok fmv =>
        simp only [hd, Except.ok.injEq] at h
        subst h
        exact ⟨parsed, rfl, rfl, rfl⟩

/-- Claim C3 witness: the amended statement instantiated at the example
post. -/
theorem claim3_witness :
    (ctxGet (renderContextPost postFirst []) (chars ("context")) =
       some (.str postFirst.excerpt) ∧
     ctxGet (renderContextPost postFirst []) (chars ("excerpt")) = none) ∧
    (∃ parsed, parseSpec tomlFFirst mdParseStub highlightStub renderStub
        (chars ("+++\ntitle = \"First Post\"\n+++\nThis is my first post.")) =
        .ok parsed ∧
      postFirst.excerpt = parsed.excerpt.getD parsed.body ∧
      postFirst.content = parsed.body) :=
  ⟨claim3_amended.1 postFirst [],
   claim3_amended.2 tomlFFirst mdParseStub highlightStub renderStub
     postFileFirst
     (chars ("+++\ntitle = \"First Post\"\n+++\nThis is my first post."))
     postFirst rfl⟩

/-! ## Claim C8 -/

/-- The frontmatter table declaring both a title and an explicit template. -/
def fmCustom : Toml :=
  Toml.table [(chars ("title"), Toml.str (chars ("T"))),
              (chars ("template"), Toml.str (chars ("custom")))]

/-- `toml::from_str` interpretation for the explicit-template frontmatter. -/
def tomlFCustom : Str → Except Str Toml := fun s =>
  if s = chars ("title = \"T\"\ntemplate = \"custom\"\n") then .ok fmCustom
  else .error []

/-- The `Page` assembled from `pages/index.html` with an explicit
`template = "custom"` declaration: the template nevertheless resolves to
`default.html`. -/
def pageCustom : Page :=
  ⟨rp (["pages", "index.html"]), ⟨false, [chars ("index.html")]⟩,
   ⟨false, [chars ("index.html")]⟩, chars ("T"),
   chars ("default.html"), chars ("body"), chars ("index"), chars ("html")⟩

/-- Claim C8 counterexample: a non-markdown page declaring
`template = "custom"` still assembles with template `"default.html"` —
the explicitly declared template does not override the default for
non-markdown pages. -/
theorem claim8_counterexample :
    extractFrontmatter tomlFCustom
      (chars ("+++\ntitle = \"T\"\ntemplate = \"custom\"\n+++\nbody")) =
      .ok (fmCustom, chars ("body")) ∧
    decodeFm fmCustom = .ok ⟨chars ("T"), some (chars ("custom"))⟩ ∧
    pageFromContent tomlFCustom mdParseStub highlightStub renderStub
      pageFileIndex
      (chars ("+++\ntitle = \"T\"\ntemplate = \"custom\"\n+++\nbody")) =
      .ok pageCustom ∧
    pageCustom.template = chars ("default.html") ∧
    pageCustom.template ≠ chars ("custom.html") :=
  ⟨rfl, rfl, rfl, rfl, by decide⟩

/-- Claim C8 (amended): document assembly requires the frontmatter field
`title` (any frontmatter without it makes the schema decode fail, and
`from_content` propagates a `ParseFrontmatter` error); `template` is
optional with default `"default"` for pages and `"post"` for posts, and a
declared `template` overrides the default for posts and for markdown pages,
but is ignored for non-markdown pages (always `"default"`); the fixed
suffix `.html` is appended to the resolved name in every case. -/
theorem claim8_amended :
    (∀ fm, tomlGet fm (chars ("title")) = none →
       ∃ m, decodeFm fm = .error m) ∧
    (∀ tomlF mdParse f re (pf : PostFile) content parsed e,
       parseSpec tomlF mdParse f re content = .ok parsed →
       decodeFm parsed.frontmatter = .error e →
       postFromContent tomlF mdParse f re pf content =
         .error (.parseFrontmatter (fmErrMsg pf.input_path e))) ∧
    (∀ tomlF mdParse f re (pf : PostFile) content parsed fmv,
       parseSpec tomlF mdParse f re content = .ok parsed →
       decodeFm parsed.frontmatter = .ok fmv →
       ∃ p, postFromContent tomlF mdParse f re pf content = .ok p ∧
         p.template = (fmv.template.getD (chars ("post"))) ++ chars (".html")) ∧
    (∀ tomlF mdParse f re (pf : PageFile) content parsed fmv,
       extIsMarkdown pf.extension = true →
       parseMarkdownSrc tomlF mdParse f re content = .ok parsed →
       decodeFm parsed.frontmatter = .ok fmv →
       ∃ pg, pageFromContent tomlF mdParse f re pf content = .ok pg ∧
         pg.template = (fmv.template.getD (chars ("default"))) ++ chars (".html")) ∧
    (∀ tomlF mdParse f re (pf : PageFile) content fm body fmv,
       extIsMarkdown pf.extension = false →
       extractFrontmatter tomlF content = .ok (fm, body) →
       decodeFm fm = .ok fmv →
       ∃ pg, pageFromContent tomlF mdParse f re pf content = .ok pg ∧
         pg.template = chars ("default") ++ chars (".html")) := by
  refine ⟨?_, ?_, ?_, ?_, ?_⟩
  · intro fm h
    unfold decodeFm
    rw [h]
    exact ⟨chars ("missing field title"), rfl⟩
  · intro tomlF mdParse f re pf content parsed e hp hd
    simp [postFromContent, hp, hd]
  · intro tomlF mdParse f re pf content parsed fmv hp hd
    have heq : postFromContent tomlF mdParse f re pf content =
        .ok ⟨pf.input_path, pf.output_path, fmv.title,
             (fmv.template.getD (chars ("post"))) ++ chars (".html"),
             parsed.body, parsed.excerpt.getD parsed.body,
             pf.date, dateFmtYmd pf.date,
             ⟨pf.date.year, pf.date.month, pf.date.day⟩,
             pf.url, pf.slug⟩ := by
      simp [postFromContent, hp, hd]
    exact ⟨_, heq, rfl⟩
  · intro tomlF mdParse f re pf content parsed fmv hmd hp hd
    have heq : pageFromContent tomlF mdParse f re pf content =
        .ok ⟨pf.input_path, pf.output_path, pf.url, fmv.title,
             (fmv.template.getD (chars ("default"))) ++ chars (".html"),
             parsed.body, pf.slug, pf.extension⟩ := by
      simp [pageFromContent, hmd, pageFromMarkdownContent, hp, hd]
    exact ⟨_, heq, rfl⟩
  · intro tomlF mdParse f re pf content fm body fmv hmd hx hd
    have heq : pageFromContent tomlF mdParse f re pf content =
        .ok ⟨pf.input_path, pf.output_path, pf.url, fmv.title,
             chars ("default") ++ chars (".html"), body, pf.slug,
             pf.extension⟩ := by
      simp [pageFromContent, hmd, pageFromNonMarkdownContent, hx, hd]
    exact ⟨_, heq, rfl⟩

/-- The frontmatter table with no `title` key. -/
def fmNoTitle : Toml := Toml.table [(chars ("draft"), Toml.boolean true)]

/-- The `PageFile` resolved from the markdown page `pages/about.md`. -/
def pageFileAbout : PageFile :=
  ⟨chars ("about"), chars ("md"), chars ("about.md"),
   ⟨false, [chars ("about.html")]⟩,
   rp (["pages", "about.md"]),
   ⟨false, [chars ("about.html")]⟩⟩

/-- Claim C8 witness: every clause instantiated concretely — a title-less
table fails to decode; the example post resolves template `post.html` by
default; a markdown page with explicit `template = "custom"` resolves
`custom.html`; a non-markdown page with the same declaration still
resolves `default.html`. -/
theorem claim8_witness :
    (∃ m, decodeFm fmNoTitle = .error m) ∧
    (∃ p, postFromContent tomlFFirst mdParseStub highlightStub renderStub
        postFileFirst
        (chars ("+++\ntitle = \"First Post\"\n+++\nThis is my first post.")) =
        .ok p ∧
      p.template = ((none : Option Str).getD (chars ("post"))) ++ chars (".html")) ∧
    (∃ pg, pageFromContent tomlFCustom mdParseStub highlightStub renderStub
        pageFileAbout
        (chars ("+++\ntitle = \"T\"\ntemplate = \"custom\"\n+++\nbody")) =
        .ok pg ∧
      pg.template = ((some (chars ("custom"))).getD (chars ("default"))) ++
        chars (".html")) ∧
    (∃ pg, pageFromContent tomlFCustom mdParseStub highlightStub renderStub
        pageFileIndex
        (chars ("+++\ntitle = \"T\"\ntemplate = \"custom\"\n+++\nbody")) =
        .ok pg ∧
      pg.template = chars ("default") ++ chars (".html")) :=
  ⟨claim8_amended.1 fmNoTitle rfl,
   claim8_amended.2.2.1 tomlFFirst mdParseStub highlightStub renderStub
     postFileFirst _ _ ⟨chars ("First Post"), none⟩ rfl rfl,
   claim8_amended.2.2.2.1 tomlFCustom mdParseStub highlightStub renderStub
     pageFileAbout _ _ ⟨chars ("T"), some (chars ("custom"))⟩ rfl rfl rfl,
   claim8_amended.2.2.2.2 tomlFCustom mdParseStub highlightStub renderStub
     pageFileIndex _ fmCustom (chars ("body"))
     ⟨chars ("T"), some (chars ("custom"))⟩ rfl rfl rfl⟩

/-! ## The post ordering used by `render_dir` (`posts.sort(); posts.reverse()`)

`Post` derives `Ord` in Rust, which compares fields lexicographically in
declaration order: `input_path` first, then `output_path`, `title`,
`template`, `content`, `excerpt`, `date`, `date_str`, `date_struct`, `url`,
`slug`.  The derived order is embedded as a lexicographic key. -/

/-- Order key of a `PathBuf`: Rust compares components, with the `RootDir`
component of an absolute path sorting before any normal component, so
absolute paths order first (encoded by negating the flag, since
`false < true`). -/
def pathKey (p : RPath) : Bool ×ₗ List Str := toLex (!p.abs, p.comps)

/-- Order key of a `NaiveDate` (chronological). -/
def dateKey (d : RDate) : Nat ×ₗ (Nat ×ₗ Nat) := toLex (d.year, toLex (d.month, d.day))

/-- Order key of a `DateStruct` (derived: year, month, day). -/
def dsKey (ds : DateStruct) : Nat ×ₗ (Nat ×ₗ Nat) :=
  toLex (ds.year, toLex (ds.month, ds.day))

/-- The full `derive(Ord)` key of a `Post`, fields in declaration order. -/
def postKey (p : Post) :
    (Bool ×ₗ List Str) ×ₗ ((Bool ×ₗ List Str) ×ₗ (Str ×ₗ (Str ×ₗ (Str ×ₗ
      (Str ×ₗ ((Nat ×ₗ (Nat ×ₗ Nat)) ×ₗ (Str ×ₗ ((Nat ×ₗ (Nat ×ₗ Nat)) ×ₗ
      ((Bool ×ₗ List Str) ×ₗ Str))))))))) :=
  toLex (pathKey p.input_path, toLex (pathKey p.output_path, toLex (p.title,
    toLex (p.template, toLex (p.content, toLex (p.excerpt,
    toLex (dateKey p.date, toLex (p.date_str, toLex (dsKey p.date_struct,
    toLex (pathKey p.url, p.slug))))))))))

/-- The derived total order on `Post` used by `posts.sort()`. -/
def postLe (a b : Post) : Prop := postKey a ≤ postKey b

instance : DecidableRel postLe :=
  fun a b => inferInstanceAs (Decidable (postKey a ≤ postKey b))

instance : IsTotal Post postLe := ⟨fun a b => le_total (postKey a) (postKey b)⟩

instance : IsTrans Post postLe := ⟨fun _ _ _ hab hbc => le_trans hab hbc⟩

/-- Chronological order on embedded dates. -/
def rdateLe (a b : RDate) : Prop := dateKey a ≤ dateKey b

instance : DecidableRel rdateLe :=
  fun a b => inferInstanceAs (Decidable (dateKey a ≤ dateKey b))

/-- `posts.sort(); posts.reverse();` from `render_dir` (`src/render.rs`
lines 108-110): stable ascending sort by the derived order, then reversal. -/
def sortedPosts (ps : List Post) : List Post :=
  (List.insertionSort postLe ps).reverse

/-! ## Claim C1 -/

/-- A post from `posts/a/2024-06-01-x.md` (June 2024). -/
def postA : Post :=
  ⟨⟨false, [chars ("posts"), chars ("a"), chars ("2024-06-01-x.md")]⟩,
   ⟨false, [chars ("2024"), chars ("06"), chars ("x.html")]⟩,
   chars ("X"), chars ("post.html"), chars ("xbody"), chars ("xbody"),
   ⟨2024, 6, 1⟩, chars ("2024-06-01"), ⟨2024, 6, 1⟩,
   ⟨true, [chars ("2024"), chars ("06"), chars ("x.html")]⟩, chars ("x")⟩

/-- A post from `posts/b/2023-06-01-y.md` (June 2023, a year older). -/
def postB : Post :=
  ⟨⟨false, [chars ("posts"), chars ("b"), chars ("2023-06-01-y.md")]⟩,
   ⟨false, [chars ("2023"), chars ("06"), chars ("y.html")]⟩,
   chars ("Y"), chars ("post.html"), chars ("ybody"), chars ("ybody"),
   ⟨2023, 6, 1⟩, chars ("2023-06-01"), ⟨2023, 6, 1⟩,
   ⟨true, [chars ("2023"), chars ("06"), chars ("y.html")]⟩, chars ("y")⟩

/-- Claim C1 counterexample: with posts in sibling sub-directories `a/` and
`b/` of the posts root, `posts.sort(); posts.reverse()` orders the June 2023
post before the June 2024 post — the collection handed to every render
context is NOT in descending date order. -/
theorem claim1_counterexample :
    sortedPosts [postA, postB] = [postB, postA] ∧
    rdateLe postB.date postA.date ∧
    ¬ rdateLe postA.date postB.date ∧
    ¬ List.Sorted (fun a b => rdateLe b.date a.date)
        (sortedPosts [postA, postB]) := by
  refine ⟨by decide, by decide, by decide, ?_⟩
  intro h
  rw [show sortedPosts [postA, postB] = [postB, postA] from by decide] at h
  exact absurd (List.rel_of_sorted_cons h postA (by simp)) (by decide)

/-- Claim C1 (amended): after `render_dir` builds the post collection it is
sorted descending by the `derive(Ord)` lexicographic order on `Post`, whose
primary key is `input_path`, and this list (a permutation of the posts read)
is what every render context receives; it is in descending `date` order only
when the derived ascending order agrees pairwise with chronological order on
the collection — which can fail for posts in different sub-directories of
the posts root (see the counterexample). -/
theorem claim1_amended :
    (∀ ps, List.Sorted (fun a b => postLe b a) (sortedPosts ps)) ∧
    (∀ ps, (sortedPosts ps).Perm ps) ∧
    (∀ ps, (∀ a ∈ ps, ∀ b ∈ ps, postLe a b → rdateLe a.date b.date) →
       List.Sorted (fun a b => rdateLe b.date a.date) (sortedPosts ps)) := by
  refine ⟨?_, ?_, ?_⟩
  · intro ps
    exact (List.pairwise_reverse).mpr (List.sorted_insertionSort postLe ps)
  · intro ps
    exact ((List.insertionSort postLe ps).reverse_perm).trans
      (List.perm_insertionSort postLe ps)
  · intro ps h
    apply (List.pairwise_reverse).mpr
    have hs := List.sorted_insertionSort postLe ps
    have hmem : ∀ a, a ∈ List.insertionSort postLe ps → a ∈ ps :=
      fun a ha => (List.perm_insertionSort postLe ps).mem_iff.mp ha
    exact List.Pairwise.imp_of_mem
      (fun ha hb hr => h _ (hmem _ ha) _ (hmem _ hb) hr) hs

/-- A post from `posts/2023-06-01-c.md`, directly in the posts root. -/
def postC : Post :=
  ⟨⟨false, [chars ("posts"), chars ("2023-06-01-c.md")]⟩,
   ⟨false, [chars ("2023"), chars ("06"), chars ("c.html")]⟩,
   chars ("C"), chars ("post.html"), chars ("cbody"), chars ("cbody"),
   ⟨2023, 6, 1⟩, chars ("2023-06-01"), ⟨2023, 6, 1⟩,
   ⟨true, [chars ("2023"), chars ("06"), chars ("c.html")]⟩, chars ("c")⟩

/-- A post from `posts/2024-06-01-d.md`, directly in the posts root. -/
def postD : Post :=
  ⟨⟨false, [chars ("posts"), chars ("2024-06-01-d.md")]⟩,
   ⟨false, [chars ("2024"), chars ("06"), chars ("d.html")]⟩,
   chars ("D"), chars ("post.html"), chars ("dbody"), chars ("dbody"),
   ⟨2024, 6, 1⟩, chars ("2024-06-01"), ⟨2024, 6, 1⟩,
   ⟨true, [chars ("2024"), chars ("06"), chars ("d.html")]⟩, chars ("d")⟩

/-- Claim C1 witness: for two flat, zero-padded posts the derived order
agrees with chronology, and the amended theorem yields the descending-date
ordering. -/
theorem claim1_witness :
    List.Sorted (fun a b => rdateLe b.date a.date) (sortedPosts [postC, postD]) :=
  claim1_amended.2.2 [postC, postD] (by decide)

/-! ## The render orchestrator (`src/render.rs`)

File-system primitives are modelled as in-memory effects: a successful
render appends `(output path, rendered text)` to the write list, and
`create_dir_all`/`fs::write` themselves always succeed (their error paths
are plain `?`-propagations like every other).  The template engine is a
type parameter `Tpl` with its two fallible operations, mirroring how `tera`
is an external collaborator. -/

/-- A file written under the output directory. -/
abbrev Write := RPath × Str

/-- `collect::<Result<Vec<_>, Error>>()`: first error wins. -/
def collectE {ε α : Type} : List (Except ε α) → Except ε (List α)
  | [] => .ok []
  | .error e :: _ => .error e
  | .ok a :: rest => (collectE rest).map (fun l => a :: l)

/-- A `for` loop of fallible render-and-write steps: performs writes in
order until the first error, which aborts the loop (the `?` in
`post.render(...)?`); already-performed writes persist. -/
def runOps {ε ω : Type} : List (Except ε ω) → List ω × Option ε
  | [] => ([], none)
  | .error e :: _ => ([], some e)
  | .ok w :: rest =>
    match runOps rest with
    | (ws, oe) => (w :: ws, oe)

theorem runOps_error_iff {ε ω : Type} :
    ∀ (ops : List (Except ε ω)) (ws : List ω) (e : ε),
      runOps ops = (ws, some e) ↔
      ∃ pre post, ops = pre.map Except.ok ++ .error e :: post ∧ ws = pre := by
  intro ops
  induction ops with
  | nil =>
    intro ws e
    constructor
    · intro h; exact absurd h (by simp [runOps])
    · rintro ⟨pre, post, hops, hws⟩
      exact absurd hops (by simp)
  | cons op rest ih =>
    intro ws e
    cases op with
    | error e0 =>
      constructor
      · intro h
        simp only [runOps, Prod.mk.injEq, Option.some.injEq] at h
        exact ⟨[], rest, by rw [h.2]; simp, h.1.symm⟩
      · rintro ⟨pre, post, hops, hws⟩
        cases pre with
        | nil =>
          simp only [List.map_nil, List.nil_append, List.cons.injEq] at hops
          obtain ⟨h1, h2⟩ := hops
          injection h1 with he
          rw [hws, he]
          rfl
        | cons p pre2 => simp at hops
    | ok w =>
      constructor
      · intro h
        simp only [runOps] at h
        rcases hr : runOps rest with ⟨ws2, oe2⟩
        rw [hr] at h
        simp only [Prod.mk.injEq] at h
        obtain ⟨hw, hoe⟩ := h
        obtain ⟨pre, post, hops, hws⟩ := (ih ws2 e).mp (by rw [hr, hoe])
        exact ⟨w :: pre, post, by simp [hops], by rw [← hw, hws]⟩
      · rintro ⟨pre, post, hops, hws⟩
        cases pre with
        | nil => simp at hops
        | cons p pre2 =>
          simp only [List.map_cons, List.cons_append, List.cons.injEq] at hops
          obtain ⟨hwp, hrest⟩ := hops
          injection hwp with hwp
          have := (ih pre2 e).mpr ⟨pre2, post, hrest, rfl⟩
          simp only [runOps, this]
          rw [hws, hwp]

theorem runOps_none_iff {ε ω : Type} :
    ∀ (ops : List (Except ε ω)) (ws : List ω),
      runOps ops = (ws, none) ↔ ops = ws.map Except.ok := by
  intro ops
  induction ops with
  | nil =>
    intro ws
    constructor
    · intro h
      simp only [runOps, Prod.mk.injEq] at h
      rw [← h.1]
      simp
    · intro h
      have : ws = [] := by cases ws <;> simp_all
      rw [this]
      rfl
  | cons op rest ih =>
    intro ws
    cases op with
    | error e0 =>
      constructor
      · intro h; exact absurd h (by simp [runOps])
      · intro h
        cases ws with
        | nil => simp at h
        | cons w ws2 => simp at h
    | ok w =>
      constructor
      · intro h
        simp only [runOps] at h
        rcases hr : runOps rest with ⟨ws2, oe2⟩
        rw [hr] at h
        simp only [Prod.mk.injEq] at h
        obtain ⟨hw, hoe⟩ := h
        have := (ih ws2).mp (by rw [hr, hoe])
        rw [← hw]
        simp [this]
      · intro h
        cases ws with
        | nil => simp at h
        | cons w2 ws2 =>
          simp only [List.map_cons, List.cons.injEq] at h
          obtain ⟨hw2, hrest⟩ := h
          injection hw2 with hw2
          simp only [runOps, (ih ws2).mpr hrest]
          rw [hw2]

/-- `read_from_directory` for posts (`src/render.rs` lines 38-62): resolve
every path first (collecting the first error), then read and assemble every
file (collecting the first error).  `paths` are the walked regular files,
already relative to the site root; `reads` abstracts `fs::read_to_string`
of the joined path. -/
def readPosts (tomlF : Str → Except Str Toml) (mdParse : Str → List MdEvent)
    (f : Str → Str → Str) (re : List MdEvent → Str)
    (paths : List RPath) (reads : RPath → Except RenderError Str) :
    Except RenderError (List Post) :=
  match collectE (paths.map postFileTryFrom) with
  | .error e => .error e
  | .ok pfs =>
    collectE (pfs.map (fun pf =>
      match reads pf.input_path with
      | .error e => .error e
      | .ok c => postFromContent tomlF mdParse f re pf c))

/-- `read_from_directory` for pages. -/
def readPages (tomlF : Str → Except Str Toml) (mdParse : Str → List MdEvent)
    (f : Str → Str → Str) (re : List MdEvent → Str)
    (paths : List RPath) (reads : RPath → Except RenderError Str) :
    Except RenderError (List Page) :=
  match collectE (paths.map pageFileTryFrom) with
  | .error e => .error e
  | .ok pfs =>
    collectE (pfs.map (fun pf =>
      match reads pf.input_path with
      | .error e => .error e
      | .ok c => pageFromContent tomlF mdParse f re pf c))

/-- `<Post as Render>::render` from `src/post.rs` (lines 209-231): build the
context (with the full post list), render through the engine, and write to
`output_dir.join(output_path)`. -/
def renderPostOp {Tpl : Type} (render : Tpl → Str → Ctx → Except Str Str)
    (tpl : Tpl) (outDir : RPath) (posts : List Post) (p : Post) :
    Except RenderError Write :=
  match render tpl p.template (renderContextPost p posts) with
  | .error e => .error (.tera e)
  | .ok out =>
    match parentOf (joinP outDir p.output_path) with
    | none => .error (.createDir (chars ("no parent directory")))
    | some _ => .ok (joinP outDir p.output_path, out)

/-- `<Page as Render>::render` from `src/page.rs` (lines 204-243): markdown
pages render their named template; non-markdown pages register their own
content as a one-off raw template (on a clone of the engine) named by the
input file name, then render it. -/
def renderPageOp {Tpl : Type} (render : Tpl → Str → Ctx → Except Str Str)
    (addRaw : Tpl → Str → Str → Except Str Tpl) (now : RDate)
    (tpl : Tpl) (outDir : RPath) (posts : List Post) (pg : Page) :
    Except RenderError Write :=
  match
    (if extIsMarkdown pg.extension then
       match render tpl pg.template (renderContextPage now pg posts) with
       | .error e => .error (.tera e)
       | .ok out => .ok out
     else
       match fileNameOf pg.input_path with
       | none => .error (.pathErr pg.input_path [])
       | some tname =>
         match addRaw tpl tname pg.content with
         | .error e => .error (.tera e)
         | .ok tpl2 =>
           match render tpl2 tname (renderContextPage now pg posts) with
           | .error e => .error (.tera e)
           | .ok out => .ok out : Except RenderError Str)
  with
  | .error e => .error e
  | .ok out =>
    match parentOf (joinP outDir pg.output_path) with
    | none => .error (.createDir (chars ("no parent directory")))
    | some _ => .ok (joinP outDir pg.output_path, out)

/-- The final `direct_copy` loop of `render_dir`, appending its writes to
those already performed. -/
def copyPhase (copies : List (Except RenderError Write)) (wsAcc : List Write) :
    List Write × Option RenderError :=
  match runOps copies with
  | (ws3, oe3) => (wsAcc ++ ws3, oe3)

/-- The page-render loop of `render_dir`, then the copy loop. -/
def pagesRenderPhase {Tpl : Type}
    (render : Tpl → Str → Ctx → Except Str Str)
    (addRaw : Tpl → Str → Str → Except Str Tpl) (now : RDate)
    (tpl : Tpl) (posts : List Post) (outDir : RPath)
    (copies : List (Except RenderError Write))
    (pages : List Page) (ws1 : List Write) : List Write × Option RenderError :=
  match runOps (pages.map
      (renderPageOp render addRaw now tpl outDir (sortedPosts posts))) with
  | (ws2, some e) => (ws1 ++ ws2, some e)
  | (ws2, none) => copyPhase copies (ws1 ++ ws2)

/-- The tail of `render_dir` after the posts were rendered: read pages,
render each page (against the sorted post list), then run the copy loop.
`ws1` carries the post writes already performed. -/
def pagesPhase {Tpl : Type}
    (render : Tpl → Str → Ctx → Except Str Str)
    (addRaw : Tpl → Str → Str → Except Str Tpl)
    (tomlF : Str → Except Str Toml) (mdParse : Str → List MdEvent)
    (f : Str → Str → Str) (re : List MdEvent → Str) (now : RDate)
    (tpl : Tpl) (posts : List Post)
    (pagePaths : List RPath) (reads : RPath → Except RenderError Str)
    (outDir : RPath) (copies : List (Except RenderError Write))
    (ws1 : List Write) : List Write × Option RenderError :=
  match readPages tomlF mdParse f re pagePaths reads with
  | .error e => (ws1, some e)
  | .ok pages =>
    pagesRenderPhase render addRaw now tpl posts outDir copies pages ws1

/-- The tail of `render_dir` once templates and posts are loaded: sort the
posts, render each against the sorted collection, then continue with the
pages phase. -/
def postsPhase {Tpl : Type}
    (render : Tpl → Str → Ctx → Except Str Str)
    (addRaw : Tpl → Str → Str → Except Str Tpl)
    (tomlF : Str → Except Str Toml) (mdParse : Str → List MdEvent)
    (f : Str → Str → Str) (re : List MdEvent → Str) (now : RDate)
    (tpl : Tpl) (posts : List Post)
    (pagePaths : List RPath) (reads : RPath → Except RenderError Str)
    (outDir : RPath) (copies : List (Except RenderError Write)) :
    List Write × Option RenderError :=
  match runOps ((sortedPosts posts).map
      (renderPostOp render tpl outDir (sortedPosts posts))) with
  | (ws1, some e) => (ws1, some e)
  | (ws1, none) =>
    pagesPhase render addRaw tomlF mdParse f re now tpl posts pagePaths reads
      outDir copies ws1

/-- `render::render_dir` from `src/render.rs` (lines 102-141): load
templates, read and sort posts, render each post, read pages, render each
page, copy the `direct_copy` entries (`copies` abstracts the walked copy
operations, each fallible like the strip-prefix/copy calls).  The result is
the list of writes actually performed plus the error (if any) that aborted
the pass. -/
def renderDirModel {Tpl : Type}
    (render : Tpl → Str → Ctx → Except Str Str)
    (addRaw : Tpl → Str → Str → Except Str Tpl)
    (tomlF : Str → Except Str Toml) (mdParse : Str → List MdEvent)
    (f : Str → Str → Str) (re : List MdEvent → Str) (now : RDate)
    (tplE : Except RenderError Tpl)
    (postPaths pagePaths : List RPath)
    (reads : RPath → Except RenderError Str)
    (outDir : RPath)
    (copies : List (Except RenderError Write)) :
    List Write × Option RenderError :=
  match tplE with
  | .error e => ([], some e)
  | .ok tpl =>
    match readPosts tomlF mdParse f re postPaths reads with
    | .error e => ([], some e)
    | .ok posts =>
      postsPhase render addRaw tomlF mdParse f re now tpl posts pagePaths
        reads outDir copies

/-! ## Claim C5 -/

/-- Where an aborted render pass may stand: the reported error is the first
failing operation's error, the writes performed are exactly those of the
successfully rendered documents before it (in order), and nothing after the
failure point was rendered or written. -/
def renderAbortSpec {Tpl : Type}
    (render : Tpl → Str → Ctx → Except Str Str)
    (addRaw : Tpl → Str → Str → Except Str Tpl)
    (tomlF : Str → Except Str Toml) (mdParse : Str → List MdEvent)
    (f : Str → Str → Str) (re : List MdEvent → Str) (now : RDate)
    (tplE : Except RenderError Tpl)
    (postPaths pagePaths : List RPath)
    (reads : RPath → Except RenderError Str)
    (outDir : RPath)
    (copies : List (Except RenderError Write))
    (ws : List Write) (e : RenderError) : Prop :=
  (tplE = .error e ∧ ws = []) ∨
  (∃ tpl, tplE = .ok tpl ∧
     readPosts tomlF mdParse f re postPaths reads = .error e ∧ ws = []) ∨
  (∃ tpl posts pre post,
     tplE = .ok tpl ∧
     readPosts tomlF mdParse f re postPaths reads = .ok posts ∧
     (sortedPosts posts).map (renderPostOp render tpl outDir (sortedPosts posts)) =
       pre.map Except.ok ++ .error e :: post ∧
     ws = pre) ∨
  (∃ tpl posts ws1,
     tplE = .ok tpl ∧
     readPosts tomlF mdParse f re postPaths reads = .ok posts ∧
     (sortedPosts posts).map (renderPostOp render tpl outDir (sortedPosts posts)) =
       ws1.map Except.ok ∧
     readPages tomlF mdParse f re pagePaths reads = .error e ∧ ws = ws1) ∨
  (∃ tpl posts ws1 pages pre post,
     tplE = .ok tpl ∧
     readPosts tomlF mdParse f re postPaths reads = .ok posts ∧
     (sortedPosts posts).map (renderPostOp render tpl outDir (sortedPosts posts)) =
       ws1.map Except.ok ∧
     readPages tomlF mdParse f re pagePaths reads = .ok pages ∧
     pages.map (renderPageOp render addRaw now tpl outDir (sortedPosts posts)) =
       pre.map Except.ok ++ .error e :: post ∧
     ws = ws1 ++ pre) ∨
  (∃ tpl posts ws1 pages ws2 pre post,
     tplE = .ok tpl ∧
     readPosts tomlF mdParse f re postPaths reads = .ok posts ∧
     (sortedPosts posts).map (renderPostOp render tpl outDir (sortedPosts posts)) =
       ws1.map Except.ok ∧
     readPages tomlF mdParse f re pagePaths reads = .ok pages ∧
     pages.map (renderPageOp render addRaw now tpl outDir (sortedPosts posts)) =
       ws2.map Except.ok ∧
     copies = pre.map Except.ok ++ .error e :: post ∧
     ws = ws1 ++ ws2 ++ pre)

/-- Claim C5 (amended): any error — template load, path resolution, file
read, frontmatter decode, template render, or copy — aborts the render pass
immediately with that error: no later document is rendered or written.  But
the abort is per-document, not per-tree: writes performed for documents
rendered before the failure remain committed (`renderAbortSpec`). -/
theorem claim5_amended {Tpl : Type}
    (render : Tpl → Str → Ctx → Except Str Str)
    (addRaw : Tpl → Str → Str → Except Str Tpl)
    (tomlF : Str → Except Str Toml) (mdParse : Str → List MdEvent)
    (f : Str → Str → Str) (re : List MdEvent → Str) (now : RDate)
    (tplE : Except RenderError Tpl)
    (postPaths pagePaths : List RPath)
    (reads : RPath → Except RenderError Str)
    (outDir : RPath)
    (copies : List (Except RenderError Write))
    (ws : List Write) (e : RenderError)
    (h : renderDirModel render addRaw tomlF mdParse f re now tplE postPaths
           pagePaths reads outDir copies = (ws, some e)) :
    renderAbortSpec render addRaw tomlF mdParse f re now tplE postPaths
      pagePaths reads outDir copies ws e := by
  unfold renderDirModel at h
  unfold renderAbortSpec
  cases tplE with
  | error e0 =>
    have h' : (([] : List Write), some e0) = (ws, some e) := h
    simp only [Prod.mk.injEq, Option.some.injEq] at h'
    exact Or.inl ⟨by rw [h'.2], h'.1.symm⟩
  | ok tpl =>
    cases hp : readPosts tomlF mdParse f re postPaths reads with
    | error e0 =>
      rw [hp] at h
      have h' : (([] : List Write), some e0) = (ws, some e) := h
      simp only [Prod.mk.injEq, Option.some.injEq] at h'
      refine Or.inr (Or.inl ⟨tpl, rfl, ?_, h'.1.symm⟩)
      rw [← h'.2]
    | ok posts =>
      rw [hp] at h
      have h1 : postsPhase render addRaw tomlF mdParse f re now tpl posts
          pagePaths reads outDir copies = (ws, some e) := h
      unfold postsPhase at h1
      rcases hr1 : runOps ((sortedPosts posts).map
          (renderPostOp render tpl outDir (sortedPosts posts))) with ⟨ws1, oe1⟩
      rw [hr1] at h1
      cases oe1 with
      | some e1 =>
        have h' : (ws1, some e1) = (ws, some e) := h1
        simp only [Prod.mk.injEq, Option.some.injEq] at h'
        obtain ⟨pre, post, hops, hpre⟩ := (runOps_error_iff _ _ _).mp hr1
        refine Or.inr (Or.inr (Or.inl ⟨tpl, posts, pre, post, rfl, rfl, ?_, ?_⟩))
        · rw [← h'.2]; exact hops
        · rw [← h'.1]; exact hpre
      | none =>
        have h2 : pagesPhase render addRaw tomlF mdParse f re now tpl posts
            pagePaths reads outDir copies ws1 = (ws, some e) := h1
        have hw1 := (runOps_none_iff _ _).mp hr1
        unfold pagesPhase at h2
        cases hg : readPages tomlF mdParse f re pagePaths reads with
        | error e0 =>
          rw [hg] at h2
          have h' : (ws1, some e0) = (ws, some e) := h2
          simp only [Prod.mk.injEq, Option.some.injEq] at h'
          refine Or.inr (Or.inr (Or.inr (Or.inl
            ⟨tpl, posts, ws1, rfl, rfl, hw1, ?_, h'.1.symm⟩)))
          rw [← h'.2]
        | ok pages =>
          rw [hg] at h2
          have h3 : pagesRenderPhase render addRaw now tpl posts outDir copies
              pages ws1 = (ws, some e) := h2
          unfold pagesRenderPhase at h3
          rcases hr2 : runOps (pages.map
              (renderPageOp render addRaw now tpl outDir (sortedPosts posts))) with
            ⟨ws2, oe2⟩
          rw [hr2] at h3
          cases oe2 with
          | some e2 =>
            have h' : (ws1 ++ ws2, some e2) = (ws, some e) := h3
            simp only [Prod.mk.injEq, Option.some.injEq] at h'
            obtain ⟨pre, post, hops, hpre⟩ := (runOps_error_iff _ _ _).mp hr2
            refine Or.inr (Or.inr (Or.inr (Or.inr (Or.inl
              ⟨tpl, posts, ws1, pages, pre, post, rfl, rfl, hw1, rfl, ?_, ?_⟩))))
            · rw [← h'.2]; exact hops
            · rw [← h'.1, hpre]
          | none =>
            have h4 : copyPhase copies (ws1 ++ ws2) = (ws, some e) := h3
            have hw2 := (runOps_none_iff _ _).mp hr2
            unfold copyPhase at h4
            rcases hr3 : runOps copies with ⟨ws3, oe3⟩
            rw [hr3] at h4
            have h' : (ws1 ++ ws2 ++ ws3, oe3) = (ws, some e) := h4
            simp only [Prod.mk.injEq] at h'
            cases oe3 with
            | none => exact absurd h'.2 (by simp)
            | some e3 =>
              obtain ⟨pre, post, hops, hpre⟩ := (runOps_error_iff copies ws3 e).mp
                (by rw [hr3, h'.2])
              refine Or.inr (Or.inr (Or.inr (Or.inr (Or.inr
                ⟨tpl, posts, ws1, pages, ws2, pre, post, rfl, rfl, hw1, rfl,
                 hw2, hops, ?_⟩))))
              rw [← h'.1, hpre]

/-- The engine interpretation that fails exactly on template `boom.html`. -/
def renderBoom : Unit → Str → Ctx → Except Str Str := fun _ name _ =>
  if name = chars ("boom.html") then .error (chars ("boom"))
  else .ok (chars ("out"))

/-- A trivial raw-template registration. -/
def addRawStub : Unit → Str → Str → Except Str Unit := fun _ _ _ => .ok ()

def postPathsBoom : List RPath :=
  [rp (["posts", "2024-06-01-aaa.md"]), rp (["posts", "2024-06-02-bbb.md"])]

/-- File contents: the OLDER post declares the failing template `boom`. -/
def readsBoom : RPath → Except RenderError Str := fun p =>
  if p = rp (["posts", "2024-06-01-aaa.md"]) then
    .ok (chars ("+++\ntitle = \"A\"\ntemplate = \"boom\"\n+++\na"))
  else if p = rp (["posts", "2024-06-02-bbb.md"]) then
    .ok (chars ("+++\ntitle = \"B\"\n+++\nb"))
  else .error (.readFile [])

def tomlFBoom : Str → Except Str Toml := fun s =>
  if s = chars ("title = \"A\"\ntemplate = \"boom\"\n") then
    .ok (Toml.table [(chars ("title"), Toml.str (chars ("A"))),
                     (chars ("template"), Toml.str (chars ("boom")))])
  else if s = chars ("title = \"B\"\n") then
    .ok (Toml.table [(chars ("title"), Toml.str (chars ("B")))])
  else .error []

/-- The write the pass commits before failing: the newer post's output. -/
def wsBoom : List Write :=
  [(⟨false, [chars ("out"), chars ("2024"), chars ("06"), chars ("bbb.html")]⟩,
    chars ("out"))]

/-- Claim C5 counterexample: a pass whose second post render fails still
commits the first post's output file — the error aborts the pass with that
error, but output already written is NOT rolled back, contradicting "no
partial output is committed when the pass fails". -/
theorem claim5_counterexample :
    renderDirModel renderBoom addRawStub tomlFBoom mdParseStub highlightStub
      renderStub ⟨2025, 1, 1⟩ (.ok ()) postPathsBoom [] readsBoom
      (rp (["out"])) [] = (wsBoom, some (.tera (chars ("boom")))) ∧
    wsBoom ≠ [] :=
  ⟨rfl, by decide⟩

/-- Claim C5 witness: the amended abort characterization at the concrete
failing pass. -/
theorem claim5_witness :
    renderAbortSpec renderBoom addRawStub tomlFBoom mdParseStub highlightStub
      renderStub ⟨2025, 1, 1⟩ (.ok ()) postPathsBoom [] readsBoom
      (rp (["out"])) [] wsBoom (.tera (chars ("boom"))) :=
  claim5_amended renderBoom addRawStub tomlFBoom mdParseStub highlightStub
    renderStub ⟨2025, 1, 1⟩ (.ok ()) postPathsBoom [] readsBoom
    (rp (["out"])) [] wsBoom (.tera (chars ("boom"))) rfl

end Kalamos
